import Mathlib

/-!
D3DTexture2Mp4.

A shallow embedding of `main.cpp`: a Direct3D 11 texture is cleared once per
frame, wrapped as a Media Foundation sample and written to an MP4 sink writer.

The program talks to three things outside itself:

* Direct3D / Media Foundation calls that return an `HRESULT`.  Their results are
  supplied by `Env.hr`: the `i`-th such call of a run succeeds iff `hr i`.
* `std::chrono::high_resolution_clock::now()`.  The `i`-th reading of a run is
  `Env.clock i`, in nanoseconds.
* the output parameters of `MFCreateDXGIDeviceManager` and `AddStream`.

Every external call that is made is appended to `Sys.trace`, so statements about
"what the program did" are statements about that list.

Conventions.
* A `ComPtr` global is modelled by a `Bool`: `true` when it holds an object.
  A successful creating call leaves its out-pointer non-null.
* `THROW_IF_FAIL` ends the run with `Outcome.threw` (nothing in the program
  catches).  Calling a method through a null `ComPtr` ends it with
  `Outcome.fault`.
* `LONGLONG` values are `Int`s, wrapped to 64 bits by `wrapI64` where the code
  does arithmetic on `frameCounter`.
* The two loops take fuel; `Outcome.spin` is "fuel exhausted".
* `Env.hr` answers by call number and does not see arguments.  Where a property
  rests on what Media Foundation answers to a particular argument, that answer
  is a hypothesis (`RefusesNullBuffer`).
-/

namespace D3DTexture2Mp4

/-! ## Constants (main.cpp lines 43-54) -/

/-- A `FLOAT[4]` clear colour; only the values 0 and 1 occur. -/
abbrev Color := List Nat

def yellow : Color := [1, 1, 0, 0]

def cyan : Color := [0, 1, 1, 0]

def magenta : Color := [1, 0, 1, 0]

def clearColors : List Color := [yellow, cyan, magenta]

def width : Nat := 640

def height : Nat := 480

def fps : Nat := 60

/-- `constexpr LONGLONG sampleDuration = 10000000 / fps;` : the division is done
in `unsigned int`, then widened. -/
def sampleDuration : Int := ((10000000 / fps % 2 ^ 32 : Nat) : Int)

def bitrateInKbps : Nat := 4096000

/-- `constexpr UINT framesUntilColorSwitch = fps * 1;` -/
def framesUntilColorSwitch : Nat := fps * 1 % 2 ^ 32

/-- `videoLength = 6s`, in nanoseconds. -/
def videoLength : Int := 6 * 1000000000

/-- `std::chrono::nanoseconds(sampleDuration * 100)`: the pacing period of
`frameBegin`, in nanoseconds. -/
def framePeriod : Int := sampleDuration * 100

/-- Two's complement wrap of an integer into the range of `LONGLONG`. -/
def wrapI64 (x : Int) : Int := (x + 2 ^ 63) % 2 ^ 64 - 2 ^ 63

/-- Conversion of a `LONGLONG` to a 64-bit `size_t`. -/
def toSizeT (x : Int) : Nat := (x % 2 ^ 64).toNat

/-! ## External calls and the trace -/

/-- The external calls of `main.cpp`.  Arguments are kept where a property
below looks at them. -/
inductive Call
  | D3D11CreateDevice
  | CreateTexture2D
  | CreateRenderTargetView
  | MFStartup
  | MFCreateDXGIDeviceManager
  | ResetDevice
  | MFCreateMediaType
  | SetGUID
  | MFSetAttributeSize
  | MFSetAttributeRatio
  | SetUINT32
  | MFCreateDXGISurfaceBuffer
  | As
  | GetContiguousLength
  | SetCurrentLength
  | MFCreateAttributes
  | SetUnknown
  | MFCreateSinkWriterFromURL
  | AddStream
  | SetInputMediaType
  | BeginWriting
  | ClearRenderTargetView (color : Color)
  | MFCreateSample
  | AddBuffer (buffer : Bool)
  | SetSampleDuration (duration : Int)
  | SetSampleTime (time : Int)
  | WriteSample (stream : Nat) (time duration : Int)
  | Finalize
  | MFShutdown
  deriving DecidableEq

/-- One external call as it happened: which call, and whether it succeeded
(`SUCCEEDED(hr)`; `true` for a `void` call). -/
structure Event where
  call : Call
  ok : Bool
  deriving DecidableEq

/-- What the outside world answers during one run. -/
structure Env where
  /-- Whether the `i`-th `HRESULT`-returning call succeeds. -/
  hr : Nat → Bool
  /-- The `i`-th reading of `high_resolution_clock::now()`, in nanoseconds. -/
  clock : Nat → Int
  /-- The token written by `MFCreateDXGIDeviceManager`. -/
  resetToken : Nat
  /-- The stream index written by `AddStream`. -/
  streamIndex : Nat

/-- The global `ComPtr`s (lines 29-36) and the two out-parameters (lines 37-38). -/
structure Com where
  device : Bool
  context : Bool
  colorBuffer : Bool
  colorView : Bool
  deviceManager : Bool
  mediaBuffer : Bool
  mp4Writer : Bool
  deviceResetToken : Nat
  outputStream : Nat
  deriving DecidableEq

/-- The program state: the globals of `main.cpp`, the number of `HRESULT`s and
clock readings consumed so far, and the trace of external calls. -/
structure Sys where
  com : Com
  frameStart : Int
  frameCounter : Int
  initialized : Bool
  calls : Nat
  reads : Nat
  trace : List Event
  deriving DecidableEq

/-- How a piece of the program ends. -/
inductive Outcome
  /-- Control reached the end of the function. -/
  | done (s : Sys)
  /-- `THROW_IF_FAIL` threw `std::exception`. -/
  | threw (s : Sys)
  /-- A method was called through a null `ComPtr`, or an array was read out of
  bounds. -/
  | fault (s : Sys)
  /-- The fuel of a loop ran out. -/
  | spin (s : Sys)
  deriving DecidableEq

/-- The state in which a piece of the program ended. -/
def Outcome.sys : Outcome → Sys
  | .done s => s
  | .threw s => s
  | .fault s => s
  | .spin s => s

/-- Sequencing: the next statement runs only after normal completion. -/
def Outcome.bind (o : Outcome) (f : Sys → Outcome) : Outcome :=
  match o with
  | .done s => f s
  | .threw s => .threw s
  | .fault s => .fault s
  | .spin s => .spin s

/-- Append one event to the trace. -/
def Sys.emit (s : Sys) (ev : Event) : Sys :=
  { s with trace := s.trace ++ [ev] }

/-- One `THROW_IF_FAIL(call)` statement. -/
structure Step where
  /-- The call that is made. -/
  call : Call
  /-- Whether the `ComPtr` the call is made through holds an object. -/
  recv : Com → Bool
  /-- The out-parameters a successful call writes. -/
  post : Com → Com

/-- A call that is not made through a global `ComPtr` and writes no global. -/
def Step.plain (c : Call) : Step := ⟨c, fun _ => true, id⟩

/-- Run `THROW_IF_FAIL(call)`: take the next `HRESULT`, record the call, throw
on failure. -/
def Step.run (e : Env) (st : Step) (s : Sys) : Outcome :=
  if st.recv s.com then
    let ok := e.hr s.calls
    let s1 := { s with calls := s.calls + 1, trace := s.trace ++ [⟨st.call, ok⟩] }
    if ok then .done { s1 with com := st.post s1.com } else .threw s1
  else .fault s

/-- A straight-line sequence of `THROW_IF_FAIL` statements. -/
def runSteps (e : Env) : List Step → Sys → Outcome
  | [], s => .done s
  | st :: rest, s => (st.run e s).bind (runSteps e rest)

/-! ## The functions of main.cpp -/

/-- The statements of `initD3D` (lines 60-81). -/
def initD3DSteps : List Step :=
  [ ⟨.D3D11CreateDevice, fun _ => true, fun c => { c with device := true, context := true }⟩,
    ⟨.CreateTexture2D, fun c => c.device, fun c => { c with colorBuffer := true }⟩,
    ⟨.CreateRenderTargetView, fun c => c.device, fun c => { c with colorView := true }⟩ ]

def initD3D (e : Env) (s : Sys) : Outcome := runSteps e initD3DSteps s

/-- The statements of `initMediaFoundation` (lines 83-125).  `inputType`,
`outputType`, `mediaBuffer2` and `attributes` are locals created by the
statement just before their first use. -/
def initMediaFoundationSteps (e : Env) : List Step :=
  [ .plain .MFStartup,
    ⟨.MFCreateDXGIDeviceManager, fun _ => true,
      fun c => { c with deviceResetToken := e.resetToken, deviceManager := true }⟩,
    ⟨.ResetDevice, fun c => c.deviceManager, id⟩,
    .plain .MFCreateMediaType,
    .plain .SetGUID,
    .plain .SetGUID,
    .plain .MFSetAttributeSize,
    .plain .MFCreateMediaType,
    .plain .SetGUID,
    .plain .SetGUID,
    .plain .MFSetAttributeSize,
    .plain .MFSetAttributeRatio,
    .plain .SetUINT32,
    .plain .SetUINT32,
    .plain .SetUINT32,
    ⟨.MFCreateDXGISurfaceBuffer, fun _ => true, fun c => { c with mediaBuffer := true }⟩,
    ⟨.As, fun c => c.mediaBuffer, id⟩,
    .plain .GetContiguousLength,
    ⟨.SetCurrentLength, fun c => c.mediaBuffer, id⟩,
    .plain .MFCreateAttributes,
    .plain .SetGUID,
    .plain .SetUnknown,
    .plain .SetUINT32,
    ⟨.MFCreateSinkWriterFromURL, fun _ => true, fun c => { c with mp4Writer := true }⟩,
    ⟨.AddStream, fun c => c.mp4Writer, fun c => { c with outputStream := e.streamIndex }⟩,
    ⟨.SetInputMediaType, fun c => c.mp4Writer, id⟩,
    ⟨.BeginWriting, fun c => c.mp4Writer, id⟩ ]

def initMediaFoundation (e : Env) (s : Sys) : Outcome :=
  runSteps e (initMediaFoundationSteps e) s

/-- Lines 127-132. -/
def init (e : Env) (s : Sys) : Outcome :=
  (initD3D e s).bind fun s =>
  (initMediaFoundation e s).bind fun s =>
  .done { s with initialized := true }

/-- The `while` loop of `frameBegin` (lines 137-140): read the clock until the
reading is at least `framePeriod` past `frameStart`. -/
def frameBeginWait (e : Env) : Nat → Sys → Outcome
  | 0, s => .spin s
  | fuel + 1, s =>
    let now := e.clock s.reads
    let s1 := { s with reads := s.reads + 1 }
    if now - s.frameStart < framePeriod then frameBeginWait e fuel s1 else .done s1

/-- Lines 135-142. -/
def frameBegin (e : Env) (fuel : Nat) (s : Sys) : Outcome :=
  (frameBeginWait e fuel s).bind fun s =>
  .done { s with frameStart := e.clock s.reads, reads := s.reads + 1 }

/-- The index expression of line 149,
`(frameCounter / framesUntilColorSwitch) % clearColors.size()`: a truncating
`LONGLONG` division, then a remainder taken in `size_t`. -/
def colorIndex (frameCounter : Int) : Nat :=
  toSizeT (Int.tdiv frameCounter framesUntilColorSwitch) % clearColors.length

/-- Lines 144-150. -/
def renderD3D (_e : Env) (s : Sys) : Outcome :=
  if !s.initialized then .done s
  else
    match clearColors.get? (colorIndex s.frameCounter) with
    | none => .fault s
    | some color =>
      if s.com.context then .done (s.emit ⟨.ClearRenderTargetView color, true⟩)
      else .fault s

/-- The `THROW_IF_FAIL` statements of `encodeD3D` (lines 157-162), for the
current values of the globals. -/
def encodeSteps (s : Sys) : List Step :=
  [ .plain .MFCreateSample,
    .plain (.AddBuffer s.com.mediaBuffer),
    .plain (.SetSampleDuration sampleDuration),
    .plain (.SetSampleTime (wrapI64 (s.frameCounter * sampleDuration))),
    ⟨.WriteSample s.com.outputStream (wrapI64 (s.frameCounter * sampleDuration)) sampleDuration,
      fun c => c.mp4Writer, id⟩ ]

/-- Lines 152-165. -/
def encodeD3D (e : Env) (s : Sys) : Outcome :=
  if !s.initialized then .done s
  else
    (runSteps e (encodeSteps s) s).bind fun s =>
    .done { s with frameCounter := wrapI64 (s.frameCounter + 1) }

/-- Lines 167-176.  The result of `MFShutdown` is not looked at. -/
def shutdown (e : Env) (s : Sys) : Outcome :=
  (Step.run e ⟨.Finalize, fun c => c.mp4Writer, id⟩ s).bind fun s =>
  let s1 := { s with com := { s.com with mp4Writer := false, mediaBuffer := false,
                                         deviceManager := false } }
  .done { s1 with calls := s1.calls + 1, trace := s1.trace ++ [⟨.MFShutdown, e.hr s1.calls⟩] }

/-- The message loop of `main` (lines 186-191). -/
def mainLoop (e : Env) (spinFuel : Nat) (programStart : Int) : Nat → Sys → Outcome
  | 0, s => .spin s
  | fuel + 1, s =>
    let now := e.clock s.reads
    let s1 := { s with reads := s.reads + 1 }
    if now - programStart < videoLength then
      (frameBegin e spinFuel s1).bind fun s =>
      (renderD3D e s).bind fun s =>
      (encodeD3D e s).bind fun s =>
      mainLoop e spinFuel programStart fuel s
    else .done s1

/-- The globals after static initialisation (lines 29-58): `frameStart` holds
the first clock reading. -/
def initialSys (e : Env) : Sys :=
  { com := ⟨false, false, false, false, false, false, false, 0, 0xFF⟩
    frameStart := e.clock 0
    frameCounter := 0
    initialized := false
    calls := 0
    reads := 1
    trace := [] }

/-- The part of `main` before `shutdown` (lines 181-191). -/
def mainBody (e : Env) (spinFuel loopFuel : Nat) : Outcome :=
  let s0 := initialSys e
  let programStart := e.clock s0.reads
  let s1 := { s0 with reads := s0.reads + 1 }
  (init e s1).bind fun s =>
  mainLoop e spinFuel programStart loopFuel s

/-- Lines 178-196. -/
def main (e : Env) (spinFuel loopFuel : Nat) : Outcome :=
  (mainBody e spinFuel loopFuel).bind (shutdown e)

/-! ## Reading a trace -/

/-- The `(timestamp, duration)` of the samples written successfully, in order. -/
def samplesOf (tr : List Event) : List (Int × Int) :=
  tr.filterMap fun ev =>
    match ev with
    | ⟨.WriteSample _ time duration, true⟩ => some (time, duration)
    | _ => none

/-- A `WriteSample` call, successful or not. -/
def Event.isWrite (ev : Event) : Bool :=
  match ev.call with
  | .WriteSample _ _ _ => true
  | _ => false

/-- A call made by `encodeD3D`. -/
def Event.isEncode (ev : Event) : Bool :=
  match ev.call with
  | .MFCreateSample | .AddBuffer _ | .SetSampleDuration _ | .SetSampleTime _
  | .WriteSample _ _ _ => true
  | _ => false

/-- The clock never goes backwards. -/
def MonotoneClock (e : Env) : Prop := ∀ i, e.clock i ≤ e.clock (i + 1)

/-! ## Properties of traces, invariants and example environments -/

/-- Every call in the trace succeeded. -/
def AllOk (tr : List Event) : Prop := ∀ ev ∈ tr, ev.ok = true

/-- A failed call, if there is one, is the last event. -/
def FailLast (tr : List Event) : Prop :=
  ∀ pre ev post, tr = pre ++ ev :: post → ev.ok = false → post = []

/-- `Finalize` was not called. -/
def NoFin (tr : List Event) : Prop := ∀ ev ∈ tr, ev.call ≠ .Finalize

/-- `WriteSample` was not called. -/
def NoWrite (tr : List Event) : Prop := ∀ ev ∈ tr, ev.isWrite = false

/-- The successful creation of the texture (line 74). -/
def surfaceCreated : Event := ⟨.CreateTexture2D, true⟩

/-- The successful `BeginWriting` (line 124). -/
def writingBegun : Event := ⟨.BeginWriting, true⟩

/-- What must have happened before a sample may be submitted. -/
def Ready (pre : List Event) : Prop :=
  surfaceCreated ∈ pre ∧ writingBegun ∈ pre ∧ NoFin pre

/-- Every `WriteSample` of the trace comes after the surface was created and
writing had begun, and before any `Finalize`. -/
def WritesReady (tr : List Event) : Prop :=
  ∀ pre ev post, tr = pre ++ ev :: post → ev.isWrite = true → Ready pre

/-- The stamp `encodeD3D` computes for the sample with index `n`. -/
def stamp (n : Nat) : Int × Int :=
  (wrapI64 (wrapI64 n * sampleDuration), sampleDuration)

/-- The samples written so far are stamped with the indices `0 .. k-1`, and
`frameCounter` is the next index. -/
def Stamped (tr : List Event) (frameCounter : Int) : Prop :=
  ∃ k : Nat, samplesOf tr = (List.range k).map stamp ∧ frameCounter = wrapI64 k

/-- Postconditions by kind of ending: `Q` after normal completion, `E` after a
throw, `F` after a fault or when fuel ran out. -/
def Outcome.sat (o : Outcome) (Q E F : Sys → Prop) : Prop :=
  match o with
  | .done s => Q s
  | .threw s => E s
  | .fault s => F s
  | .spin s => F s

/-- What holds of the trace, `frameCounter` and `initialized` whenever control is
between two statements of `main` before `shutdown`. -/
structure InvT (tr : List Event) (fc : Int) (ini : Bool) : Prop where
  allOk : AllOk tr
  noFin : NoFin tr
  ready : WritesReady tr
  stamped : Stamped tr fc
  began : ini = true → surfaceCreated ∈ tr ∧ writingBegun ∈ tr
  quiet : ini = false → NoWrite tr

/-- What holds after a throw before `shutdown`. -/
structure ErrT (tr : List Event) (fc : Int) (ini : Bool) : Prop where
  failLast : FailLast tr
  failed : ¬ AllOk tr
  noFin : NoFin tr
  ready : WritesReady tr
  stamped : Stamped tr fc
  quiet : ini = false → NoWrite tr

/-- `InvT` of a state. -/
def Inv (s : Sys) : Prop := InvT s.trace s.frameCounter s.initialized

/-- `ErrT` of a state. -/
def Err (s : Sys) : Prop := ErrT s.trace s.frameCounter s.initialized

/-- A statement list without `WriteSample` and `Finalize`. -/
def Harmless (steps : List Step) : Prop :=
  ∀ st ∈ steps, st.call ≠ .Finalize ∧ ∀ b, Event.isWrite ⟨st.call, b⟩ = false

/-- The event of a statement whose call succeeded. -/
def Step.okEvent (st : Step) : Event := ⟨st.call, true⟩

/-- What holds of the state `main` returns normally: the trace is that of the
body, all calls successful, followed by `Finalize` and `MFShutdown`. -/
def MainDone (s : Sys) : Prop :=
  ∃ tr b, s.trace = tr ++ [⟨.Finalize, true⟩, ⟨.MFShutdown, b⟩] ∧
    InvT tr s.frameCounter s.initialized

/-- What holds of the state in which `main` throws: either the body threw, or
`Finalize` failed. -/
def MainErr (s : Sys) : Prop :=
  Err s ∨ ∃ tr, s.trace = tr ++ [⟨.Finalize, false⟩] ∧ InvT tr s.frameCounter s.initialized

/-- Every call succeeds and each clock reading is half a second after the one
before: four frames are written before the six seconds are over. -/
def envHalfSecond : Env := ⟨fun _ => true, fun i => i * 500000000, 0, 0⟩

/-- As `envHalfSecond`, but the `WriteSample` of frame 2 (the 45th
`HRESULT`-returning call of the run) fails. -/
def envWriteFails : Env := ⟨fun i => i != 44, fun i => i * 500000000, 0, 0⟩

/-- The piece of program returned. -/
def Outcome.isDone : Outcome → Bool
  | .done _ => true
  | _ => false

/-- The piece of program ended by `THROW_IF_FAIL`. -/
def Outcome.isThrew : Outcome → Bool
  | .threw _ => true
  | _ => false

/-- The piece of program ended at a null pointer. -/
def Outcome.isFault : Outcome → Bool
  | .fault _ => true
  | _ => false

/-- Every call succeeds but the 18th, the `SetUINT32` of line 104 that selects the
H.264 profile: `initMediaFoundation` throws. -/
def envOpenFails : Env := ⟨fun i => i != 17, fun i => i * 500000000, 0, 0⟩

/-- Every call succeeds; the first frame takes three seconds to get through
`frameBegin` and three more to render and encode. -/
def envSlow : Env :=
  ⟨fun _ => true, fun i => if i < 3 then 0 else if i < 5 then 3000000000 else 6000000000, 0, 0⟩

/-- The pacing facts that hold at the head of the message loop: `programStart`
(reading 1) has been read, `frameStart` is not later than the last reading,
and after `k + 1` samples `frameStart` is at least `k` periods past
`programStart`. -/
def Paced (e : Env) (s : Sys) : Prop :=
  2 ≤ s.reads ∧ s.frameStart ≤ e.clock (s.reads - 1) ∧
  ∀ k : Nat, (samplesOf s.trace).length = k + 1 →
    e.clock 1 + (k : Int) * framePeriod ≤ s.frameStart

/-- Whether every statement of the list finds the pointer it calls through
non-null, when the statements before it succeeded. -/
def recvOk : List Step → Com → Bool
  | [], _ => true
  | st :: rest, c => st.recv c && recvOk rest (st.post c)

/-- The piece of program did not end at a null pointer, and `Q` holds if it
returned. -/
def Outcome.safe (o : Outcome) (Q : Sys → Prop) : Prop :=
  match o with
  | .done s => Q s
  | .fault _ => False
  | _ => True

/-- The pointers the message loop and `shutdown` call through are set. -/
def ComReady (s : Sys) : Prop := s.com.context = true ∧ s.com.mp4Writer = true

theorem sampleDuration_eq : sampleDuration = 166666 := by decide

theorem framePeriod_eq : framePeriod = 16666600 := by decide

theorem videoLength_eq : videoLength = 6000000000 := by decide

theorem wrapI64_of_range (x : Int) (h0 : -(2 : Int) ^ 63 ≤ x) (h1 : x < 2 ^ 63) :
    wrapI64 x = x := by
  unfold wrapI64
  omega

theorem wrapI64_add (a b : Int) : wrapI64 (wrapI64 a + b) = wrapI64 (a + b) := by
  unfold wrapI64
  omega

theorem colorIndex_of_nat (n : Nat) (hn : (n : Int) < 2 ^ 63) :
    colorIndex (n : Int) = n / 60 % 3 := by
  have h60 : ((framesUntilColorSwitch : Nat) : Int) = 60 := by decide
  have hlen : clearColors.length = 3 := rfl
  unfold colorIndex toSizeT
  rw [h60, hlen, Int.tdiv_eq_ediv (by omega) (by omega)]
  omega

theorem clock_mono (e : Env) (h : MonotoneClock e) {i j : Nat} (hij : i ≤ j) :
    e.clock i ≤ e.clock j :=
  monotone_nat_of_le_succ h hij

/-! ## The pacing loop -/

theorem frameBeginWait_done (e : Env) : ∀ (fuel : Nat) (s s' : Sys),
    frameBeginWait e fuel s = .done s' →
    ∃ i, s.reads ≤ i ∧ s' = { s with reads := i + 1 } ∧
      framePeriod ≤ e.clock i - s.frameStart ∧
      ∀ j, s.reads ≤ j → j < i → e.clock j - s.frameStart < framePeriod := by
  intro fuel
  induction fuel with
  | zero => intro s s' h; simp [frameBeginWait] at h
  | succ n ih =>
    intro s s' h
    simp only [frameBeginWait] at h
    split at h
    · next hlt =>
      obtain ⟨i, hi, hs, hp, hj⟩ := ih _ _ h
      simp only at hi hs hp hj
      refine ⟨i, by omega, hs, hp, ?_⟩
      intro j hj1 hj2
      by_cases hjs : j = s.reads
      · subst hjs; exact hlt
      · exact hj j (by omega) hj2
    · next hge =>
      injection h with h
      subst h
      exact ⟨s.reads, le_refl _, rfl, by omega, by intro j h1 h2; omega⟩

/-- Once some reading from `s.reads` on is `framePeriod` past `frameStart`, the
wait loop ends, given fuel for the readings up to it. -/
theorem frameBeginWait_returns (e : Env) : ∀ (d : Nat) (s : Sys) (fuel : Nat),
    framePeriod ≤ e.clock (s.reads + d) - s.frameStart → d < fuel →
    ∃ s', frameBeginWait e fuel s = .done s' := by
  intro d
  induction d with
  | zero =>
    intro s fuel h hf
    obtain ⟨n, rfl⟩ : ∃ n, fuel = n + 1 := ⟨fuel - 1, by omega⟩
    have h' : ¬ e.clock s.reads - s.frameStart < framePeriod := by simpa using h
    refine ⟨{ s with reads := s.reads + 1 }, ?_⟩
    simp only [frameBeginWait, if_neg h']
  | succ d ih =>
    intro s fuel h hf
    obtain ⟨n, rfl⟩ : ∃ n, fuel = n + 1 := ⟨fuel - 1, by omega⟩
    simp only [frameBeginWait]
    split
    · exact ih { s with reads := s.reads + 1 } n
        (by simpa [Nat.add_assoc, Nat.add_comm 1 d] using h) (by omega)
    · exact ⟨_, rfl⟩

theorem frameBegin_done (e : Env) (fuel : Nat) (s s' : Sys)
    (h : frameBegin e fuel s = .done s') :
    ∃ i, s.reads ≤ i ∧
      s' = { s with frameStart := e.clock (i + 1), reads := i + 2 } ∧
      framePeriod ≤ e.clock i - s.frameStart ∧
      ∀ j, s.reads ≤ j → j < i → e.clock j - s.frameStart < framePeriod := by
  unfold frameBegin at h
  cases hw : frameBeginWait e fuel s with
  | done s1 =>
    obtain ⟨i, hi, hs, hp, hj⟩ := frameBeginWait_done e fuel s s1 hw
    rw [hw] at h
    simp only [Outcome.bind] at h
    injection h with h
    subst h
    subst hs
    exact ⟨i, hi, rfl, hp, hj⟩
  | threw s1 => rw [hw] at h; simp [Outcome.bind] at h
  | fault s1 => rw [hw] at h; simp [Outcome.bind] at h
  | spin s1 => rw [hw] at h; simp [Outcome.bind] at h

theorem frameBegin_returns (e : Env) (d : Nat) (s : Sys) (fuel : Nat)
    (h : framePeriod ≤ e.clock (s.reads + d) - s.frameStart) (hf : d < fuel) :
    ∃ s', frameBegin e fuel s = .done s' := by
  obtain ⟨s1, h1⟩ := frameBeginWait_returns e d s fuel h hf
  refine ⟨{ s1 with frameStart := e.clock s1.reads, reads := s1.reads + 1 }, ?_⟩
  simp only [frameBegin, h1, Outcome.bind]

/-! ## Properties of traces -/

theorem snoc_split {α : Type} (tr : List α) (x : α) (pre : List α) (ev : α) (post : List α)
    (h : tr ++ [x] = pre ++ ev :: post) :
    (post = [] ∧ pre = tr ∧ ev = x) ∨ ∃ post', post = post' ++ [x] ∧ tr = pre ++ ev :: post' := by
  rcases List.eq_nil_or_concat post with rfl | ⟨p, b, rfl⟩
  · left
    have := List.append_inj' h rfl
    simp_all
  · right
    have h2 : tr ++ [x] = (pre ++ ev :: p) ++ [b] := by simpa using h
    have := List.append_inj' h2 rfl
    simp_all

theorem AllOk.snocOk {tr : List Event} (h : AllOk tr) {x : Event} (hx : x.ok = true) :
    AllOk (tr ++ [x]) := by
  intro ev hev
  rcases List.mem_append.1 hev with h1 | h1
  · exact h ev h1
  · simp at h1; subst h1; exact hx

theorem AllOk.failLast {tr : List Event} (h : AllOk tr) : FailLast tr := by
  intro pre ev post htr hev
  have : ev ∈ tr := by rw [htr]; simp
  have := h ev this
  simp_all

theorem AllOk.failLast_snoc {tr : List Event} (h : AllOk tr) (x : Event) :
    FailLast (tr ++ [x]) := by
  intro pre ev post htr hev
  rcases snoc_split tr x pre ev post htr with ⟨hp, _, _⟩ | ⟨p, _, htr'⟩
  · exact hp
  · have : ev ∈ tr := by rw [htr']; simp
    have := h ev this
    simp_all

theorem NoFin.snocFin {tr : List Event} (h : NoFin tr) {x : Event} (hx : x.call ≠ .Finalize) :
    NoFin (tr ++ [x]) := by
  intro ev hev
  rcases List.mem_append.1 hev with h1 | h1
  · exact h ev h1
  · simp at h1; subst h1; exact hx

theorem NoWrite.snocQuiet {tr : List Event} (h : NoWrite tr) {x : Event} (hx : x.isWrite = false) :
    NoWrite (tr ++ [x]) := by
  intro ev hev
  rcases List.mem_append.1 hev with h1 | h1
  · exact h ev h1
  · simp at h1; subst h1; exact hx

theorem WritesReady.snocReady {tr : List Event} (h : WritesReady tr) {x : Event}
    (hx : x.isWrite = true → Ready tr) : WritesReady (tr ++ [x]) := by
  intro pre ev post htr hev
  rcases snoc_split tr x pre ev post htr with ⟨_, hp, he⟩ | ⟨p, _, htr'⟩
  · subst hp; subst he; exact hx hev
  · exact h pre ev p htr' hev

theorem NoWrite.writesReady {tr : List Event} (h : NoWrite tr) : WritesReady tr := by
  intro pre ev post htr hev
  have : ev ∈ tr := by rw [htr]; simp
  have := h ev this
  simp_all

theorem samplesOf_snoc_other (tr : List Event) (x : Event)
    (hx : x.isWrite = false ∨ x.ok = false) : samplesOf (tr ++ [x]) = samplesOf tr := by
  unfold samplesOf
  rw [List.filterMap_append]
  obtain ⟨c, ok⟩ := x
  cases c <;> cases ok <;> simp_all [Event.isWrite]

theorem samplesOf_snoc_write (tr : List Event) (st : Nat) (t d : Int) :
    samplesOf (tr ++ [⟨.WriteSample st t d, true⟩]) = samplesOf tr ++ [(t, d)] := by
  unfold samplesOf
  rw [List.filterMap_append]
  simp

theorem Stamped.snoc_other {tr : List Event} {fc : Int} (h : Stamped tr fc) (x : Event)
    (hx : x.isWrite = false ∨ x.ok = false) : Stamped (tr ++ [x]) fc := by
  obtain ⟨k, hk, hfc⟩ := h
  exact ⟨k, by rw [samplesOf_snoc_other tr x hx, hk], hfc⟩

theorem Stamped.snoc_stamp {tr : List Event} {fc : Int} (h : Stamped tr fc) (st : Nat) :
    Stamped (tr ++ [⟨.WriteSample st (wrapI64 (fc * sampleDuration)) sampleDuration, true⟩])
      (wrapI64 (fc + 1)) := by
  obtain ⟨k, hk, hfc⟩ := h
  refine ⟨k + 1, ?_, ?_⟩
  · rw [samplesOf_snoc_write, hk, List.range_succ, List.map_append, hfc]
    rfl
  · rw [hfc, wrapI64_add]
    push_cast
    rfl

/-! ## Hoare-style reasoning over outcomes -/

theorem Outcome.sat_bind {o : Outcome} {f : Sys → Outcome} {Q R E F : Sys → Prop}
    (h : o.sat Q E F) (hf : ∀ s, Q s → (f s).sat R E F) : (o.bind f).sat R E F := by
  cases o <;> simp_all [Outcome.bind, Outcome.sat]

theorem Outcome.sat_mono {o : Outcome} {Q Q' E E' F F' : Sys → Prop}
    (h : o.sat Q E F) (hQ : ∀ s, Q s → Q' s) (hE : ∀ s, E s → E' s) (hF : ∀ s, F s → F' s) :
    o.sat Q' E' F' := by
  cases o <;> simp_all [Outcome.sat]

theorem runSteps_sat (e : Env) (Q E F : Sys → Prop) :
    ∀ (steps : List Step), (∀ st ∈ steps, ∀ s, Q s → (st.run e s).sat Q E F) →
    ∀ s, Q s → (runSteps e steps s).sat Q E F := by
  intro steps
  induction steps with
  | nil => intro _ s hs; exact hs
  | cons st rest ih =>
    intro h s hs
    simp only [runSteps]
    exact Outcome.sat_bind (h st (by simp) s hs)
      (fun s' hs' => ih (fun st' hst' => h st' (by simp [hst'])) s' hs')

theorem InvT.snoc_ok {tr : List Event} {fc : Int} {ini : Bool} (h : InvT tr fc ini)
    (c : Call) (hf : c ≠ .Finalize) (hw : Event.isWrite ⟨c, true⟩ = false) :
    InvT (tr ++ [⟨c, true⟩]) fc ini where
  allOk := h.allOk.snocOk rfl
  noFin := h.noFin.snocFin hf
  ready := h.ready.snocReady (by simp [hw])
  stamped := h.stamped.snoc_other _ (Or.inl hw)
  began := fun hi => by
    obtain ⟨h1, h2⟩ := h.began hi
    exact ⟨List.mem_append_left _ h1, List.mem_append_left _ h2⟩
  quiet := fun hi => (h.quiet hi).snocQuiet hw

theorem InvT.snoc_fail {tr : List Event} {fc : Int} {ini : Bool} (h : InvT tr fc ini)
    (c : Call) (hf : c ≠ .Finalize) (hw : Event.isWrite ⟨c, false⟩ = true → ini = true) :
    ErrT (tr ++ [⟨c, false⟩]) fc ini where
  failLast := h.allOk.failLast_snoc _
  failed := fun hall => by
    have := hall ⟨c, false⟩ (by simp)
    simp at this
  noFin := h.noFin.snocFin hf
  ready := h.ready.snocReady (fun hx => by
    obtain ⟨h1, h2⟩ := h.began (hw hx)
    exact ⟨h1, h2, h.noFin⟩)
  stamped := h.stamped.snoc_other _ (Or.inr rfl)
  quiet := fun hi => by
    cases hx : Event.isWrite ⟨c, false⟩
    · exact (h.quiet hi).snocQuiet hx
    · rw [hw hx] at hi; cases hi

theorem InvT.snoc_write {tr : List Event} {fc : Int} (h : InvT tr fc true) (st : Nat) :
    InvT (tr ++ [⟨.WriteSample st (wrapI64 (fc * sampleDuration)) sampleDuration, true⟩])
      (wrapI64 (fc + 1)) true where
  allOk := h.allOk.snocOk rfl
  noFin := h.noFin.snocFin (by simp)
  ready := h.ready.snocReady (fun _ => by
    obtain ⟨h1, h2⟩ := h.began rfl
    exact ⟨h1, h2, h.noFin⟩)
  stamped := h.stamped.snoc_stamp st
  began := fun hi => by
    obtain ⟨h1, h2⟩ := h.began hi
    exact ⟨List.mem_append_left _ h1, List.mem_append_left _ h2⟩
  quiet := fun hi => by cases hi

theorem Step.run_sat (e : Env) (st : Step) (s : Sys) (h : Inv s)
    (hf : st.call ≠ .Finalize) (hw : ∀ b, Event.isWrite ⟨st.call, b⟩ = false) :
    (st.run e s).sat (fun s' => Inv s' ∧ s'.frameCounter = s.frameCounter ∧
        s'.initialized = s.initialized) Err
      (fun s' => Inv s') := by
  unfold Step.run
  by_cases hr : st.recv s.com = true
  · rw [if_pos hr]
    cases hok : e.hr s.calls
    · simpa [Outcome.sat, Err] using h.snoc_fail st.call hf (by simp [hw false])
    · simpa [Outcome.sat, Inv] using h.snoc_ok st.call hf (hw true)
  · rw [if_neg hr]
    exact h

theorem Outcome.sat_and_done {o : Outcome} {Q R E F : Sys → Prop} (h : o.sat Q E F)
    (h' : ∀ s, o = .done s → R s) : o.sat (fun s => Q s ∧ R s) E F := by
  cases o <;> simp_all [Outcome.sat]

theorem runSteps_inv (e : Env) (steps : List Step) (hsteps : Harmless steps) (s : Sys)
    (h : Inv s) :
    (runSteps e steps s).sat (fun s' => Inv s' ∧ s'.frameCounter = s.frameCounter ∧
        s'.initialized = s.initialized) Err Inv := by
  refine runSteps_sat e _ Err Inv steps ?_ s ⟨h, rfl, rfl⟩
  intro st hst s1 ⟨h1, h2, h3⟩
  refine Outcome.sat_mono (Step.run_sat e st s1 h1 (hsteps st hst).1 (hsteps st hst).2) ?_
    (fun _ h => h) (fun _ h => h)
  intro s2 ⟨k1, k2, k3⟩
  exact ⟨k1, k2.trans h2, k3.trans h3⟩

theorem runSteps_done (e : Env) : ∀ (steps : List Step) (s s' : Sys),
    runSteps e steps s = .done s' →
    s' = { s with com := steps.foldl (fun c st => st.post c) s.com,
                  calls := s.calls + steps.length,
                  trace := s.trace ++ steps.map Step.okEvent } := by
  intro steps
  induction steps with
  | nil =>
    intro s s' h
    simp only [runSteps] at h
    injection h with h
    subst h
    simp
  | cons st rest ih =>
    intro s s' h
    simp only [runSteps, Step.run] at h
    by_cases hr : st.recv s.com = true
    · rw [if_pos hr] at h
      cases hok : e.hr s.calls
      · simp [hok, Outcome.bind] at h
      · simp only [hok, if_true, Outcome.bind] at h
        have := ih _ _ h
        rw [this]
        simp [Step.okEvent, Nat.add_assoc, Nat.add_comm 1]
    · rw [if_neg hr] at h
      simp [Outcome.bind] at h

theorem harmless_initD3DSteps : Harmless initD3DSteps := by
  intro st hst
  simp only [initD3DSteps, List.mem_cons, List.mem_singleton, List.not_mem_nil, or_false] at hst
  rcases hst with rfl | rfl | rfl <;> simp [Event.isWrite]

theorem harmless_initMediaFoundationSteps (e : Env) : Harmless (initMediaFoundationSteps e) := by
  intro st hst
  simp only [initMediaFoundationSteps, List.mem_cons, List.mem_singleton, List.not_mem_nil,
    or_false] at hst
  rcases hst with rfl | rfl | rfl | rfl | rfl | rfl | rfl | rfl | rfl | rfl | rfl | rfl | rfl |
    rfl | rfl | rfl | rfl | rfl | rfl | rfl | rfl | rfl | rfl | rfl | rfl | rfl | rfl <;>
    simp [Event.isWrite, Step.plain]

/-- The state `init` leaves when every call succeeds. -/
theorem init_done (e : Env) (s s' : Sys) (h : init e s = .done s') :
    s' = { s with com := (initD3DSteps ++ initMediaFoundationSteps e).foldl
                           (fun c st => st.post c) s.com,
                  calls := s.calls + 30,
                  trace := s.trace ++ (initD3DSteps ++ initMediaFoundationSteps e).map Step.okEvent,
                  initialized := true } := by
  unfold init initD3D initMediaFoundation at h
  cases h1 : runSteps e initD3DSteps s with
  | done s1 =>
    rw [h1] at h
    simp only [Outcome.bind] at h
    cases h2 : runSteps e (initMediaFoundationSteps e) s1 with
    | done s2 =>
      rw [h2] at h
      simp only [Outcome.bind] at h
      injection h with h
      subst h
      rw [runSteps_done e _ _ _ h2, runSteps_done e _ _ _ h1]
      simp [List.foldl_append, initD3DSteps, initMediaFoundationSteps, Nat.add_assoc]
    | threw s2 => rw [h2] at h; simp [Outcome.bind] at h
    | fault s2 => rw [h2] at h; simp [Outcome.bind] at h
    | spin s2 => rw [h2] at h; simp [Outcome.bind] at h
  | threw s1 => rw [h1] at h; simp [Outcome.bind] at h
  | fault s1 => rw [h1] at h; simp [Outcome.bind] at h
  | spin s1 => rw [h1] at h; simp [Outcome.bind] at h

theorem init_sat (e : Env) (s : Sys) (h : Inv s) :
    (init e s).sat (fun s' => Inv s' ∧ s'.initialized = true) Err Inv := by
  have key := Outcome.sat_and_done (R := fun s' => surfaceCreated ∈ s'.trace ∧
    writingBegun ∈ s'.trace ∧ s'.initialized = true)
    (show (init e s).sat (fun s' => InvT s'.trace s'.frameCounter s.initialized) Err Inv from ?_) ?_
  · refine Outcome.sat_mono key ?_ (fun _ h => h) (fun _ h => h)
    intro s' ⟨k1, k2, k3, k4⟩
    refine ⟨⟨k1.allOk, k1.noFin, k1.ready, k1.stamped, fun _ => ⟨k2, k3⟩, ?_⟩, k4⟩
    intro h0
    rw [k4] at h0
    cases h0
  · unfold init initD3D initMediaFoundation
    refine Outcome.sat_bind (runSteps_inv e _ harmless_initD3DSteps s h) ?_
    intro s1 ⟨h1, _, hi1⟩
    refine Outcome.sat_bind (runSteps_inv e _ (harmless_initMediaFoundationSteps e) s1 h1) ?_
    intro s2 ⟨h2, _, hi2⟩
    simp only [Outcome.sat]
    rw [← hi1, ← hi2]
    exact h2
  · intro s' hs'
    rw [init_done e s s' hs']
    simp [surfaceCreated, writingBegun, initD3DSteps, initMediaFoundationSteps, Step.okEvent,
      Step.plain]

/-- The wait loop only consumes clock readings: it ends normally or out of fuel,
with nothing but `reads` changed. -/
theorem frameBeginWait_frame (e : Env) : ∀ (fuel : Nat) (s : Sys),
    ∃ r, frameBeginWait e fuel s = .done { s with reads := r } ∨
         frameBeginWait e fuel s = .spin { s with reads := r } := by
  intro fuel
  induction fuel with
  | zero => intro s; exact ⟨s.reads, Or.inr rfl⟩
  | succ n ih =>
    intro s
    simp only [frameBeginWait]
    split
    · obtain ⟨r, hr⟩ := ih { s with reads := s.reads + 1 }
      exact ⟨r, hr⟩
    · exact ⟨s.reads + 1, Or.inl rfl⟩

theorem frameBegin_frame (e : Env) (fuel : Nat) (s : Sys) :
    ∃ r, frameBegin e fuel s = .done { s with frameStart := e.clock r, reads := r + 1 } ∨
         frameBegin e fuel s = .spin { s with reads := r } := by
  obtain ⟨r, hr | hr⟩ := frameBeginWait_frame e fuel s
  · exact ⟨r, Or.inl (by simp only [frameBegin, hr, Outcome.bind])⟩
  · exact ⟨r, Or.inr (by simp only [frameBegin, hr, Outcome.bind])⟩

theorem frameBegin_sat (e : Env) (fuel : Nat) (s : Sys) (h : Inv s) :
    (frameBegin e fuel s).sat Inv Err Inv := by
  obtain ⟨r, hr | hr⟩ := frameBegin_frame e fuel s <;> rw [hr] <;> exact h

theorem renderD3D_sat (e : Env) (s : Sys) (h : Inv s) : (renderD3D e s).sat Inv Err Inv := by
  unfold renderD3D
  split
  · exact h
  · split
    · exact h
    · split
      · exact h.snoc_ok _ (by simp) (by simp [Event.isWrite])
      · exact h

theorem encodeD3D_sat (e : Env) (s : Sys) (h : Inv s) : (encodeD3D e s).sat Inv Err Inv := by
  unfold encodeD3D
  by_cases hi : s.initialized = true
  · simp only [hi, Bool.not_true, Bool.false_eq_true, if_false, encodeSteps, runSteps]
    have plain : ∀ (c : Call) (s1 : Sys), Inv s1 → s1.frameCounter = s.frameCounter →
        s1.initialized = true → c ≠ .Finalize → (∀ b, Event.isWrite ⟨c, b⟩ = false) →
        ((Step.plain c).run e s1).sat (fun s' => Inv s' ∧ s'.frameCounter = s.frameCounter ∧
          s'.initialized = true) Err Inv := by
      intro c s1 h1 hfc hi1 hc hw
      refine Outcome.sat_mono (Step.run_sat e (Step.plain c) s1 h1 hc hw) ?_
        (fun _ h => h) (fun _ h => h)
      intro s2 ⟨k1, k2, k3⟩
      exact ⟨k1, k2.trans hfc, k3.trans hi1⟩
    have write : ∀ (s1 : Sys), Inv s1 → s1.frameCounter = s.frameCounter →
        s1.initialized = true →
        (Step.run e ⟨.WriteSample s.com.outputStream (wrapI64 (s.frameCounter * sampleDuration))
            sampleDuration, fun c => c.mp4Writer, id⟩ s1).sat
          (fun s' => InvT s'.trace (wrapI64 (s'.frameCounter + 1)) s'.initialized) Err Inv := by
      intro s1 h1 hfc hi1
      unfold Step.run
      by_cases hr : s1.com.mp4Writer = true
      · simp only [hr, if_true]
        cases hok : e.hr s1.calls
        · simpa [Outcome.sat, Err] using h1.snoc_fail _ (by simp) (fun _ => hi1)
        · have h1' : InvT s1.trace s1.frameCounter true := by rw [← hi1]; exact h1
          simpa [Outcome.sat, hi1, hfc] using h1'.snoc_write s.com.outputStream
      · simp only [hr, if_false]
        exact h1
    refine Outcome.sat_bind (Q := fun s' => InvT s'.trace (wrapI64 (s'.frameCounter + 1))
      s'.initialized) ?_ (fun s' hs' => hs')
    refine Outcome.sat_bind (plain _ s h rfl hi (by simp) (by simp [Event.isWrite])) ?_
    intro s1 ⟨h1, hfc1, hi1⟩
    refine Outcome.sat_bind (plain _ s1 h1 hfc1 hi1 (by simp) (by simp [Event.isWrite])) ?_
    intro s2 ⟨h2, hfc2, hi2⟩
    refine Outcome.sat_bind (plain _ s2 h2 hfc2 hi2 (by simp) (by simp [Event.isWrite])) ?_
    intro s3 ⟨h3, hfc3, hi3⟩
    refine Outcome.sat_bind (plain _ s3 h3 hfc3 hi3 (by simp) (by simp [Event.isWrite])) ?_
    intro s4 ⟨h4, hfc4, hi4⟩
    exact Outcome.sat_bind (write s4 h4 hfc4 hi4) (fun s' hs' => hs')
  · simp only [Bool.not_eq_true] at hi
    simp only [hi, Bool.not_false, if_true]
    exact h

theorem mainLoop_sat (e : Env) (spinFuel : Nat) (programStart : Int) :
    ∀ (fuel : Nat) (s : Sys), Inv s →
      (mainLoop e spinFuel programStart fuel s).sat Inv Err Inv := by
  intro fuel
  induction fuel with
  | zero => intro s h; exact h
  | succ n ih =>
    intro s h
    simp only [mainLoop]
    split
    · refine Outcome.sat_bind (frameBegin_sat e spinFuel _ h) ?_
      intro s1 h1
      refine Outcome.sat_bind (renderD3D_sat e s1 h1) ?_
      intro s2 h2
      refine Outcome.sat_bind (encodeD3D_sat e s2 h2) ?_
      intro s3 h3
      exact ih s3 h3
    · exact h

theorem inv_initialSys (e : Env) (r : Nat) : Inv { initialSys e with reads := r } where
  allOk := by intro ev hev; simp [initialSys] at hev
  noFin := by intro ev hev; simp [initialSys] at hev
  ready := by
    intro pre ev post h
    simp [initialSys] at h
  stamped := ⟨0, by simp [initialSys, samplesOf], by simp [initialSys, wrapI64]⟩
  began := by intro h; simp [initialSys] at h
  quiet := by intro _ ev hev; simp [initialSys] at hev

theorem mainBody_sat (e : Env) (spinFuel loopFuel : Nat) :
    (mainBody e spinFuel loopFuel).sat Inv Err Inv := by
  unfold mainBody
  refine Outcome.sat_bind (init_sat e _ (inv_initialSys e _)) ?_
  intro s ⟨h, _⟩
  exact mainLoop_sat e spinFuel _ loopFuel s h

theorem shutdown_sat (e : Env) (s : Sys) (h : Inv s) :
    (shutdown e s).sat MainDone MainErr Inv := by
  unfold shutdown Step.run
  by_cases hr : s.com.mp4Writer = true
  · simp only [hr, if_true]
    cases hok : e.hr s.calls
    · simp only [Bool.false_eq_true, if_false, Outcome.bind, Outcome.sat]
      exact Or.inr ⟨s.trace, rfl, h⟩
    · simp only [if_true, Outcome.bind, Outcome.sat]
      exact ⟨s.trace, e.hr (s.calls + 1), by simp, h⟩
  · simp only [hr, if_false, Outcome.bind, Outcome.sat]
    exact h

theorem main_sat (e : Env) (spinFuel loopFuel : Nat) :
    (main e spinFuel loopFuel).sat MainDone MainErr Inv := by
  unfold main
  exact Outcome.sat_bind
    (Outcome.sat_mono (mainBody_sat e spinFuel loopFuel) (fun _ h => h) (fun _ h => Or.inl h)
      (fun _ h => h))
    (fun s hs => shutdown_sat e s hs)

/-! ## Facts about every run of `main` -/

theorem main_stamped (e : Env) (spinFuel loopFuel : Nat) :
    Stamped (main e spinFuel loopFuel).sys.trace (main e spinFuel loopFuel).sys.frameCounter := by
  have h := main_sat e spinFuel loopFuel
  cases hm : main e spinFuel loopFuel with
  | done s =>
    rw [hm] at h
    obtain ⟨tr, b, htr, hinv⟩ := h
    simp only [Outcome.sys, htr]
    have : tr ++ [⟨.Finalize, true⟩, ⟨.MFShutdown, b⟩]
        = (tr ++ [⟨.Finalize, true⟩]) ++ [⟨.MFShutdown, b⟩] := by simp
    rw [this]
    exact (hinv.stamped.snoc_other ⟨.Finalize, true⟩ (Or.inl rfl)).snoc_other
      ⟨.MFShutdown, b⟩ (Or.inl rfl)
  | threw s =>
    rw [hm] at h
    rcases h with h | ⟨tr, htr, hinv⟩
    · exact h.stamped
    · simp only [Outcome.sys, htr]
      exact hinv.stamped.snoc_other ⟨.Finalize, false⟩ (Or.inl rfl)
  | fault s => rw [hm] at h; exact h.stamped
  | spin s => rw [hm] at h; exact h.stamped

theorem main_writesReady (e : Env) (spinFuel loopFuel : Nat) :
    WritesReady (main e spinFuel loopFuel).sys.trace := by
  have h := main_sat e spinFuel loopFuel
  cases hm : main e spinFuel loopFuel with
  | done s =>
    rw [hm] at h
    obtain ⟨tr, b, htr, hinv⟩ := h
    simp only [Outcome.sys, htr]
    have : tr ++ [⟨.Finalize, true⟩, ⟨.MFShutdown, b⟩]
        = (tr ++ [⟨.Finalize, true⟩]) ++ [⟨.MFShutdown, b⟩] := by simp
    rw [this]
    exact (hinv.ready.snocReady (by simp [Event.isWrite])).snocReady (by simp [Event.isWrite])
  | threw s =>
    rw [hm] at h
    rcases h with h | ⟨tr, htr, hinv⟩
    · exact h.ready
    · simp only [Outcome.sys, htr]
      exact hinv.ready.snocReady (by simp [Event.isWrite])
  | fault s => rw [hm] at h; exact h.ready
  | spin s => rw [hm] at h; exact h.ready

theorem main_failLast (e : Env) (spinFuel loopFuel : Nat) :
    FailLast (main e spinFuel loopFuel).sys.trace := by
  have h := main_sat e spinFuel loopFuel
  cases hm : main e spinFuel loopFuel with
  | done s =>
    rw [hm] at h
    obtain ⟨tr, b, htr, hinv⟩ := h
    simp only [Outcome.sys, htr]
    have : tr ++ [⟨.Finalize, true⟩, ⟨.MFShutdown, b⟩]
        = (tr ++ [⟨.Finalize, true⟩]) ++ [⟨.MFShutdown, b⟩] := by simp
    rw [this]
    exact (hinv.allOk.snocOk rfl).failLast_snoc _
  | threw s =>
    rw [hm] at h
    rcases h with h | ⟨tr, htr, hinv⟩
    · exact h.failLast
    · simp only [Outcome.sys, htr]
      exact hinv.allOk.failLast_snoc _
  | fault s => rw [hm] at h; exact h.allOk.failLast
  | spin s => rw [hm] at h; exact h.allOk.failLast

/-- A failed call of `encodeD3D` in the trace of a run means that the body of
`main` threw: the run ended there, before `shutdown`. -/
theorem main_failed_encode (e : Env) (spinFuel loopFuel : Nat) (ev : Event)
    (hev : ev ∈ (main e spinFuel loopFuel).sys.trace) (henc : ev.isEncode = true)
    (hfail : ev.ok = false) :
    ∃ s, main e spinFuel loopFuel = .threw s ∧ Err s := by
  have h := main_sat e spinFuel loopFuel
  cases hm : main e spinFuel loopFuel with
  | done s =>
    rw [hm] at h hev
    obtain ⟨tr, b, htr, hinv⟩ := h
    simp only [Outcome.sys, htr, List.mem_append, List.mem_cons, List.mem_singleton,
      List.not_mem_nil, or_false] at hev
    rcases hev with h1 | rfl | rfl
    · have := hinv.allOk ev h1
      simp_all
    · simp [Event.isEncode] at henc
    · simp [Event.isEncode] at henc
  | threw s =>
    rw [hm] at h hev
    rcases h with h | ⟨tr, htr, hinv⟩
    · exact ⟨s, rfl, h⟩
    · simp only [Outcome.sys, htr, List.mem_append, List.mem_singleton] at hev
      rcases hev with h1 | rfl
      · have := hinv.allOk ev h1
        simp_all
      · simp [Event.isEncode] at henc
  | fault s =>
    rw [hm] at h hev
    have := h.allOk ev hev
    simp_all
  | spin s =>
    rw [hm] at h hev
    have := h.allOk ev hev
    simp_all

theorem stamp_of_small (n : Nat) (h : (n : Int) * sampleDuration < 2 ^ 63) :
    stamp n = ((n : Int) * sampleDuration, sampleDuration) := by
  unfold stamp
  rw [sampleDuration_eq] at h ⊢
  rw [wrapI64_of_range (n : Int) (by omega) (by omega),
    wrapI64_of_range _ (by omega) h]

theorem Stamped.get {tr : List Event} {fc : Int} (h : Stamped tr fc) (n : Nat)
    (hn : n < (samplesOf tr).length) : (samplesOf tr)[n]? = some (stamp n) := by
  obtain ⟨k, hk, _⟩ := h
  rw [hk] at hn ⊢
  simp only [List.length_map, List.length_range] at hn
  simp [hn]

theorem monotone_envHalfSecond : MonotoneClock envHalfSecond := by
  intro i
  show (i : Int) * 500000000 ≤ ((i + 1 : Nat) : Int) * 500000000
  push_cast
  omega

/-! ## C1, C2: sample timestamps -/

/-- C1: in every run of `main`, the `n`-th sample written successfully (counting
from 0) carries timestamp `n * sampleDuration` and duration `sampleDuration`,
and every earlier sample exists and carries a strictly smaller timestamp; so the
timestamps start at 0 and increase strictly, without duplicate or gap.  Stated
for the indices whose timestamp fits a `LONGLONG`. -/
theorem sample_timestamps (e : Env) (spinFuel loopFuel n : Nat)
    (hn : n < (samplesOf (main e spinFuel loopFuel).sys.trace).length)
    (hb : (n : Int) * sampleDuration < 2 ^ 63) :
    (samplesOf (main e spinFuel loopFuel).sys.trace)[n]?
        = some ((n : Int) * sampleDuration, sampleDuration) ∧
    ∀ m, m < n → ∃ t d, (samplesOf (main e spinFuel loopFuel).sys.trace)[m]? = some (t, d) ∧
        t = (m : Int) * sampleDuration ∧ t < (n : Int) * sampleDuration := by
  have hst := main_stamped e spinFuel loopFuel
  refine ⟨by rw [hst.get n hn, stamp_of_small n hb], ?_⟩
  intro m hm
  have hlt : (m : Int) * sampleDuration < (n : Int) * sampleDuration := by
    rw [sampleDuration_eq]
    omega
  refine ⟨(m : Int) * sampleDuration, sampleDuration, ?_, rfl, hlt⟩
  rw [hst.get m (by omega), stamp_of_small m (by omega)]

set_option maxRecDepth 100000 in
theorem sample_timestamps_witness :
    (samplesOf (main envHalfSecond 1 5).sys.trace)[2]?
      = some (((2 : Nat) : Int) * sampleDuration, sampleDuration) :=
  (sample_timestamps envHalfSecond 1 5 2 (by decide) (by decide)).1

set_option maxRecDepth 100000 in
/-- C2, as stated, fails: the run `envHalfSecond` writes four samples stamped
0, 166666, 333332, 499998, so frame `n` is not stamped `n * 166667`. -/
theorem timestamps_not_166667 :
    (samplesOf (main envHalfSecond 1 5).sys.trace).map Prod.fst = [0, 166666, 333332, 499998] ∧
    ¬ ∀ (n : Nat) (t d : Int), (samplesOf (main envHalfSecond 1 5).sys.trace)[n]? = some (t, d) →
        t = (n : Int) * 166667 := by
  refine ⟨by decide, ?_⟩
  intro h
  have := h 1 166666 166666 (by decide)
  omega

/-- C2, amended: with `fps = 60`, `sampleDuration` is the truncated quotient
`10000000 / 60 = 166666` (100 ns units), and the `n`-th sample written is
stamped `n * 166666` with duration 166666: the timestamps are 0, 166666,
333332, ... -/
theorem sample_timestamps_60fps (e : Env) (spinFuel loopFuel n : Nat)
    (hn : n < (samplesOf (main e spinFuel loopFuel).sys.trace).length)
    (hb : (n : Int) * 166666 < 2 ^ 63) :
    fps = 60 ∧ sampleDuration = 10000000 / 60 ∧ sampleDuration = 166666 ∧
    (samplesOf (main e spinFuel loopFuel).sys.trace)[n]? = some ((n : Int) * 166666, 166666) := by
  refine ⟨rfl, by decide, by decide, ?_⟩
  have hst := main_stamped e spinFuel loopFuel
  rw [hst.get n hn, stamp_of_small n (by rw [sampleDuration_eq]; exact hb), sampleDuration_eq]

set_option maxRecDepth 100000 in
theorem sample_timestamps_60fps_witness :
    (samplesOf (main envHalfSecond 1 5).sys.trace)[3]? = some (((3 : Nat) : Int) * 166666, 166666) :=
  (sample_timestamps_60fps envHalfSecond 1 5 3 (by decide) (by decide)).2.2.2

/-! ## C9, C3: the guards and the clear colour -/

/-- C9: while `initialized` is false, `renderD3D` and `encodeD3D` return at once:
no call is made, nothing is thrown, and the state (trace, `frameCounter` and
all the rest) is the one they were entered with. -/
theorem uninitialized_noop (e : Env) (s : Sys) (h : s.initialized = false) :
    renderD3D e s = .done s ∧ encodeD3D e s = .done s := by
  simp [renderD3D, encodeD3D, h]

theorem uninitialized_noop_witness :
    renderD3D envHalfSecond (initialSys envHalfSecond) = .done (initialSys envHalfSecond) ∧
    encodeD3D envHalfSecond (initialSys envHalfSecond) = .done (initialSys envHalfSecond) :=
  uninitialized_noop envHalfSecond (initialSys envHalfSecond) rfl

/-- C3: for a frame index `n` (a non-negative `LONGLONG`), `renderD3D`, once
initialized, makes exactly one call, `ClearRenderTargetView` on the whole view,
with entry `n / 60 % 3` of the palette (yellow, cyan, magenta); that index lies
inside the palette, and the colour depends on `n` only, not on the rest of the
state. -/
theorem renderD3D_color (e : Env) (s : Sys) (n : Nat) (hn : (n : Int) < 2 ^ 63)
    (hfc : s.frameCounter = n) (hi : s.initialized = true) (hc : s.com.context = true) :
    clearColors = [yellow, cyan, magenta] ∧
    colorIndex s.frameCounter = n / 60 % 3 ∧ n / 60 % 3 < clearColors.length ∧
    ∃ color, clearColors.get? (n / 60 % 3) = some color ∧
      renderD3D e s = .done (s.emit ⟨.ClearRenderTargetView color, true⟩) := by
  have hidx : colorIndex s.frameCounter = n / 60 % 3 := by rw [hfc]; exact colorIndex_of_nat n hn
  have hlt : n / 60 % 3 < clearColors.length := by
    show n / 60 % 3 < 3
    omega
  refine ⟨rfl, hidx, hlt, clearColors.get ⟨n / 60 % 3, hlt⟩, List.get?_eq_get hlt, ?_⟩
  simp only [renderD3D, hi, hc, hidx, List.get?_eq_get hlt, Bool.not_true, Bool.false_eq_true,
    if_false, if_true]

set_option maxRecDepth 100000 in
theorem renderD3D_color_witness :
    ∃ color, clearColors.get? (125 / 60 % 3) = some color ∧
      renderD3D envHalfSecond
          { (init envHalfSecond (initialSys envHalfSecond)).sys with frameCounter := 125 }
        = .done (Sys.emit
            { (init envHalfSecond (initialSys envHalfSecond)).sys with frameCounter := 125 }
            ⟨.ClearRenderTargetView color, true⟩) :=
  (renderD3D_color envHalfSecond
    { (init envHalfSecond (initialSys envHalfSecond)).sys with frameCounter := 125 } 125
    (by decide) rfl (by decide) (by decide)).2.2.2

/-! ## C8: pacing -/

/-- C8: under a clock that never goes backwards, when `frameBegin` returns, the
reading `i` that ended its wait is at least `sampleDuration` (100 ns units,
that is `sampleDuration * 100` ns) later than `frameStart` was on entry, every
reading of the wait before it was earlier than that, and `frameStart` has been
set to the next reading, which is not earlier than reading `i`. -/
theorem frameBegin_pacing (e : Env) (hm : MonotoneClock e) (fuel : Nat) (s s' : Sys)
    (h : frameBegin e fuel s = .done s') :
    ∃ i, s.reads ≤ i ∧
      (∀ j, s.reads ≤ j → j < i → e.clock j < s.frameStart + sampleDuration * 100) ∧
      s.frameStart + sampleDuration * 100 ≤ e.clock i ∧
      s'.frameStart = e.clock (i + 1) ∧ s'.reads = i + 2 ∧
      e.clock i ≤ s'.frameStart ∧ s.frameStart + sampleDuration * 100 ≤ s'.frameStart := by
  obtain ⟨i, hi, hs, hp, hj⟩ := frameBegin_done e fuel s s' h
  have hle : e.clock i ≤ e.clock (i + 1) := hm i
  unfold framePeriod at hp hj
  subst hs
  refine ⟨i, hi, ?_, by omega, rfl, rfl, hle, ?_⟩
  · intro j h1 h2
    have := hj j h1 h2
    omega
  · show s.frameStart + sampleDuration * 100 ≤ e.clock (i + 1)
    omega

set_option maxRecDepth 100000 in
theorem frameBegin_pacing_witness :
    ∃ i, (initialSys envHalfSecond).reads ≤ i ∧
      (∀ j, (initialSys envHalfSecond).reads ≤ j → j < i →
        envHalfSecond.clock j < (initialSys envHalfSecond).frameStart + sampleDuration * 100) ∧
      (initialSys envHalfSecond).frameStart + sampleDuration * 100 ≤ envHalfSecond.clock i ∧
      (frameBegin envHalfSecond 1 (initialSys envHalfSecond)).sys.frameStart
        = envHalfSecond.clock (i + 1) ∧
      (frameBegin envHalfSecond 1 (initialSys envHalfSecond)).sys.reads = i + 2 ∧
      envHalfSecond.clock i ≤ (frameBegin envHalfSecond 1 (initialSys envHalfSecond)).sys.frameStart ∧
      (initialSys envHalfSecond).frameStart + sampleDuration * 100
        ≤ (frameBegin envHalfSecond 1 (initialSys envHalfSecond)).sys.frameStart :=
  frameBegin_pacing envHalfSecond monotone_envHalfSecond 1 (initialSys envHalfSecond)
    (frameBegin envHalfSecond 1 (initialSys envHalfSecond)).sys (by decide)

/-- The three ways `encodeD3D` can end once `initialized` is set: all five calls
succeed and the counter advances; or one call fails and it throws; or the first
four succeed and the writer pointer is null. -/
theorem encodeD3D_cases (e : Env) (s : Sys) (hi : s.initialized = true) :
    (∃ s', encodeD3D e s = .done s' ∧ s.com.mp4Writer = true ∧
        samplesOf s'.trace
          = samplesOf s.trace ++ [(wrapI64 (s.frameCounter * sampleDuration), sampleDuration)] ∧
        s'.frameCounter = wrapI64 (s.frameCounter + 1) ∧
        s'.reads = s.reads ∧ s'.frameStart = s.frameStart) ∨
    (∃ s', encodeD3D e s = .threw s' ∧
        samplesOf s'.trace = samplesOf s.trace ∧ s'.frameCounter = s.frameCounter) ∨
    (∃ s', encodeD3D e s = .fault s' ∧ s.com.mp4Writer = false ∧
        samplesOf s'.trace = samplesOf s.trace ∧ s'.frameCounter = s.frameCounter) := by
  simp only [encodeD3D, hi, encodeSteps, runSteps, Step.run, Step.plain,
    Bool.not_true, Bool.false_eq_true, if_false, if_true, id]
  cases h0 : e.hr s.calls
  · right; left
    simp only [Bool.false_eq_true, if_false, Outcome.bind]
    refine ⟨_, rfl, ?_, rfl⟩
    simp [samplesOf, List.filterMap_append]
  simp only [if_true, Outcome.bind]
  cases h1 : e.hr (s.calls + 1)
  · right; left
    simp only [Bool.false_eq_true, if_false, Outcome.bind]
    refine ⟨_, rfl, ?_, rfl⟩
    simp [samplesOf, List.filterMap_append]
  simp only [if_true, Outcome.bind]
  cases h2 : e.hr (s.calls + 1 + 1)
  · right; left
    simp only [Bool.false_eq_true, if_false, Outcome.bind]
    refine ⟨_, rfl, ?_, rfl⟩
    simp [samplesOf, List.filterMap_append]
  simp only [if_true, Outcome.bind]
  cases h3 : e.hr (s.calls + 1 + 1 + 1)
  · right; left
    simp only [Bool.false_eq_true, if_false, Outcome.bind]
    refine ⟨_, rfl, ?_, rfl⟩
    simp [samplesOf, List.filterMap_append]
  simp only [if_true, Outcome.bind]
  cases hw : s.com.mp4Writer
  · right; right
    simp only [Bool.false_eq_true, if_false, Outcome.bind]
    refine ⟨_, rfl, trivial, ?_, rfl⟩
    simp [samplesOf, List.filterMap_append]
  simp only [if_true, Outcome.bind]
  cases h4 : e.hr (s.calls + 1 + 1 + 1 + 1)
  · right; left
    simp only [Bool.false_eq_true, if_false, Outcome.bind]
    refine ⟨_, rfl, ?_, rfl⟩
    simp [samplesOf, List.filterMap_append]
  · left
    simp only [if_true, Outcome.bind]
    refine ⟨_, rfl, trivial, ?_, rfl, rfl, rfl⟩
    simp [samplesOf, List.filterMap_append]

theorem runSteps_initialized (e : Env) : ∀ (steps : List Step) (s : Sys),
    (runSteps e steps s).sys.initialized = s.initialized := by
  intro steps
  induction steps with
  | nil => intro s; rfl
  | cons st rest ih =>
    intro s
    simp only [runSteps, Step.run]
    by_cases hr : st.recv s.com = true
    · rw [if_pos hr]
      cases hok : e.hr s.calls
      · rfl
      · simp only [if_true, Outcome.bind]
        rw [ih]
    · rw [if_neg hr]
      rfl

theorem shutdown_done (e : Env) (s s' : Sys) (h : shutdown e s = .done s') :
    s.com.mp4Writer = true ∧ s'.com.mp4Writer = false ∧ s'.initialized = s.initialized ∧
    s'.frameCounter = s.frameCounter ∧ s'.reads = s.reads ∧
    samplesOf s'.trace = samplesOf s.trace := by
  unfold shutdown Step.run at h
  by_cases hr : s.com.mp4Writer = true
  · simp only [hr, if_true] at h
    cases hok : e.hr s.calls
    · simp [hok, Outcome.bind] at h
    · simp only [hok, if_true, Outcome.bind] at h
      injection h with h
      subst h
      simp [hr, samplesOf, List.filterMap_append]
  · simp [hr, Outcome.bind] at h

/-! ## C4, C10: a failed submission -/

set_option maxRecDepth 100000 in
/-- C4, as stated, fails: in the run `envWriteFails` the `WriteSample` of frame 2
fails after samples 0 and 1 were written, `main` ends by the exception, and
`Finalize` is not called. -/
theorem finalize_skipped_example :
    samplesOf (main envWriteFails 1 5).sys.trace = [(0, 166666), (166666, 166666)] ∧
    (⟨.WriteSample 0 333332 166666, false⟩ : Event) ∈ (main envWriteFails 1 5).sys.trace ∧
    (main envWriteFails 1 5).isThrew = true ∧
    ∀ ev ∈ (main envWriteFails 1 5).sys.trace, ev.call ≠ .Finalize := by
  decide

/-- C4, amended: if a call of `encodeD3D` fails in a run of `main` (a sample
submission fails at some frame `k`), `main` ends by the exception thrown there:
`shutdown` is not reached and `Finalize` is not called at all, so the samples
`0 .. k-1` already written are not followed by a finalize. -/
theorem failed_submission_skips_finalize (e : Env) (spinFuel loopFuel : Nat) (ev : Event)
    (hev : ev ∈ (main e spinFuel loopFuel).sys.trace) (henc : ev.isEncode = true)
    (hfail : ev.ok = false) :
    (∃ s, main e spinFuel loopFuel = .threw s) ∧
    ∀ x ∈ (main e spinFuel loopFuel).sys.trace, x.call ≠ .Finalize := by
  obtain ⟨s, hs, herr⟩ := main_failed_encode e spinFuel loopFuel ev hev henc hfail
  refine ⟨⟨s, hs⟩, ?_⟩
  rw [hs]
  exact herr.noFin

set_option maxRecDepth 100000 in
theorem failed_submission_skips_finalize_witness :
    (∃ s, main envWriteFails 1 5 = .threw s) ∧
    ∀ x ∈ (main envWriteFails 1 5).sys.trace, x.call ≠ .Finalize :=
  failed_submission_skips_finalize envWriteFails 1 5 ⟨.WriteSample 0 333332 166666, false⟩
    (by decide) rfl rfl

/-- C10: with `initialized` set and the writer in place, `encodeD3D` either makes
all five calls, writes one sample stamped `frameCounter * sampleDuration` with
duration `sampleDuration` and advances `frameCounter` by 1, or throws with no
sample written and `frameCounter` unchanged; and in a run of `main` a failed
call of `encodeD3D` is the last event: `main` ends by that exception, with no
further render or submission. -/
theorem encodeD3D_all_or_nothing (e : Env) :
    (∀ s : Sys, s.initialized = true → s.com.mp4Writer = true → 0 ≤ s.frameCounter →
      (s.frameCounter + 1) * sampleDuration < 2 ^ 63 →
      (∃ s', encodeD3D e s = .done s' ∧
          samplesOf s'.trace
            = samplesOf s.trace ++ [(s.frameCounter * sampleDuration, sampleDuration)] ∧
          s'.frameCounter = s.frameCounter + 1) ∨
      (∃ s', encodeD3D e s = .threw s' ∧ samplesOf s'.trace = samplesOf s.trace ∧
          s'.frameCounter = s.frameCounter)) ∧
    (∀ (spinFuel loopFuel : Nat) (pre : List Event) (ev : Event) (post : List Event),
      (main e spinFuel loopFuel).sys.trace = pre ++ ev :: post → ev.isEncode = true →
      ev.ok = false → post = [] ∧ ∃ s', main e spinFuel loopFuel = .threw s') := by
  constructor
  · intro s hi hw h0 hb
    rw [sampleDuration_eq] at hb
    rcases encodeD3D_cases e s hi with ⟨s', h1, _, h2, h3, _⟩ | ⟨s', h1, h2, h3⟩ |
      ⟨s', _, h1, _⟩
    · left
      refine ⟨s', h1, ?_, ?_⟩
      · rw [h2, wrapI64_of_range _ (by rw [sampleDuration_eq]; omega)
          (by rw [sampleDuration_eq]; omega)]
      · rw [h3, wrapI64_of_range _ (by omega) (by omega)]
    · right
      exact ⟨s', h1, h2, h3⟩
    · rw [hw] at h1
      cases h1
  · intro spinFuel loopFuel pre ev post htr henc hfail
    refine ⟨main_failLast e spinFuel loopFuel pre ev post htr hfail, ?_⟩
    obtain ⟨s, hs, _⟩ := main_failed_encode e spinFuel loopFuel ev (by rw [htr]; simp) henc hfail
    exact ⟨s, hs⟩

set_option maxRecDepth 100000 in
theorem encodeD3D_all_or_nothing_witness :
    ((∃ s', encodeD3D envHalfSecond (init envHalfSecond (initialSys envHalfSecond)).sys = .done s' ∧
          samplesOf s'.trace
            = samplesOf (init envHalfSecond (initialSys envHalfSecond)).sys.trace ++
              [((init envHalfSecond (initialSys envHalfSecond)).sys.frameCounter * sampleDuration,
                sampleDuration)] ∧
          s'.frameCounter = (init envHalfSecond (initialSys envHalfSecond)).sys.frameCounter + 1) ∨
      (∃ s', encodeD3D envHalfSecond (init envHalfSecond (initialSys envHalfSecond)).sys = .threw s' ∧
          samplesOf s'.trace = samplesOf (init envHalfSecond (initialSys envHalfSecond)).sys.trace ∧
          s'.frameCounter = (init envHalfSecond (initialSys envHalfSecond)).sys.frameCounter)) ∧
    (List.drop 48 (main envWriteFails 1 5).sys.trace = [] ∧
      ∃ s', main envWriteFails 1 5 = .threw s') :=
  ⟨(encodeD3D_all_or_nothing envHalfSecond).1
      (init envHalfSecond (initialSys envHalfSecond)).sys (by decide) (by decide) (by decide)
      (by decide),
   (encodeD3D_all_or_nothing envWriteFails).2 1 5
      (List.take 47 (main envWriteFails 1 5).sys.trace)
      ⟨.WriteSample 0 333332 166666, false⟩
      (List.drop 48 (main envWriteFails 1 5).sys.trace) (by decide) rfl rfl⟩

/-! ## C5: `encodeD3D` after `shutdown` -/

/-- C6: in every run of `main`, whatever the external calls answer, each
`WriteSample` call comes after the successful `CreateTexture2D` and the
successful `BeginWriting`, and no `Finalize` call comes before it; and if
`initMediaFoundation` throws, `main` ends by that exception with no
`WriteSample` call in the trace. -/
theorem writes_between_begin_and_finalize (e : Env) (spinFuel loopFuel : Nat) :
    (∀ (pre : List Event) (ev : Event) (post : List Event),
      (main e spinFuel loopFuel).sys.trace = pre ++ ev :: post → ev.isWrite = true →
      (⟨.CreateTexture2D, true⟩ : Event) ∈ pre ∧ (⟨.BeginWriting, true⟩ : Event) ∈ pre ∧
      ∀ x ∈ pre, x.call ≠ .Finalize) ∧
    (∀ s s' : Sys, initD3D e { initialSys e with reads := 2 } = .done s →
      initMediaFoundation e s = .threw s' →
      main e spinFuel loopFuel = .threw s' ∧ ∀ x ∈ s'.trace, x.isWrite = false) := by
  constructor
  · intro pre ev post htr hw
    exact main_writesReady e spinFuel loopFuel pre ev post htr hw
  · intro s s' h1 h2
    have hmain : main e spinFuel loopFuel = .threw s' := by
      have h1' : initD3D e { initialSys e with reads := (initialSys e).reads + 1 } = .done s := h1
      simp only [main, mainBody, init, h1', h2, Outcome.bind]
    refine ⟨hmain, ?_⟩
    have hsat := main_sat e spinFuel loopFuel
    rw [hmain] at hsat
    have hini : s'.initialized = false := by
      have e2 := runSteps_initialized e (initMediaFoundationSteps e) s
      have e1 := runSteps_initialized e initD3DSteps { initialSys e with reads := 2 }
      unfold initMediaFoundation at h2
      unfold initD3D at h1
      rw [h2] at e2
      rw [h1] at e1
      exact e2.trans e1
    rcases hsat with herr | ⟨tr, htr, hinv⟩
    · exact herr.quiet hini
    · intro x hx
      rw [htr] at hx
      rcases List.mem_append.1 hx with hx | hx
      · exact hinv.quiet hini x hx
      · simp only [List.mem_singleton] at hx
        subst hx
        rfl

set_option maxRecDepth 100000 in
theorem writes_between_begin_and_finalize_witness :
    ((⟨.CreateTexture2D, true⟩ : Event) ∈ List.take 35 (main envHalfSecond 1 5).sys.trace ∧
      (⟨.BeginWriting, true⟩ : Event) ∈ List.take 35 (main envHalfSecond 1 5).sys.trace ∧
      ∀ x ∈ List.take 35 (main envHalfSecond 1 5).sys.trace, x.call ≠ .Finalize) ∧
    (main envOpenFails 1 5
        = .threw (initMediaFoundation envOpenFails
            (initD3D envOpenFails { initialSys envOpenFails with reads := 2 }).sys).sys ∧
      ∀ x ∈ (initMediaFoundation envOpenFails
            (initD3D envOpenFails { initialSys envOpenFails with reads := 2 }).sys).sys.trace,
        x.isWrite = false) :=
  ⟨(writes_between_begin_and_finalize envHalfSecond 1 5).1
      (List.take 35 (main envHalfSecond 1 5).sys.trace) ⟨.WriteSample 0 0 166666, true⟩
      (List.drop 36 (main envHalfSecond 1 5).sys.trace) (by decide) rfl,
   (writes_between_begin_and_finalize envOpenFails 1 5).2
      (initD3D envOpenFails { initialSys envOpenFails with reads := 2 }).sys
      (initMediaFoundation envOpenFails
        (initD3D envOpenFails { initialSys envOpenFails with reads := 2 }).sys).sys
      (by decide) (by decide)⟩

/-! ## C7: how many frames a run holds -/

theorem Outcome.bind_eq_done {o : Outcome} {f : Sys → Outcome} {s' : Sys}
    (h : o.bind f = .done s') : ∃ s1, o = .done s1 ∧ f s1 = .done s' := by
  cases o with
  | done s1 => exact ⟨s1, rfl, h⟩
  | threw s1 => simp [Outcome.bind] at h
  | fault s1 => simp [Outcome.bind] at h
  | spin s1 => simp [Outcome.bind] at h

theorem renderD3D_done (e : Env) (s s' : Sys) (h : renderD3D e s = .done s') :
    s'.reads = s.reads ∧ s'.frameStart = s.frameStart ∧
    samplesOf s'.trace = samplesOf s.trace := by
  unfold renderD3D at h
  split at h
  · injection h with h; subst h; exact ⟨rfl, rfl, rfl⟩
  · split at h
    · cases h
    · split at h
      · injection h with h
        subst h
        exact ⟨rfl, rfl, samplesOf_snoc_other _ _ (Or.inl rfl)⟩
      · cases h

theorem encodeD3D_done (e : Env) (s s' : Sys) (h : encodeD3D e s = .done s') :
    s'.reads = s.reads ∧ s'.frameStart = s.frameStart ∧
    ((samplesOf s'.trace).length = (samplesOf s.trace).length ∨
      (samplesOf s'.trace).length = (samplesOf s.trace).length + 1) := by
  by_cases hi : s.initialized = true
  · rcases encodeD3D_cases e s hi with ⟨s1, h1, _, h2, _, h3, h4⟩ | ⟨s1, h1, _⟩ | ⟨s1, h1, _⟩
    · rw [h1] at h
      injection h with h
      subst h
      exact ⟨h3, h4, Or.inr (by rw [h2]; simp)⟩
    · rw [h1] at h; cases h
    · rw [h1] at h; cases h
  · simp only [Bool.not_eq_true] at hi
    simp only [encodeD3D, hi, Bool.not_false, if_true] at h
    injection h with h
    subst h
    exact ⟨rfl, rfl, Or.inl rfl⟩

theorem mainLoop_paced (e : Env) (hm : MonotoneClock e) (spinFuel : Nat) :
    ∀ (fuel : Nat) (s s' : Sys), Paced e s →
      mainLoop e spinFuel (e.clock 1) fuel s = .done s' →
      videoLength ≤ e.clock (s'.reads - 1) - e.clock 1 ∧
      ((samplesOf s'.trace).length : Int)
        ≤ (e.clock (s'.reads - 1) - e.clock 1) / framePeriod + 1 := by
  intro fuel
  induction fuel with
  | zero => intro s s' _ h; simp [mainLoop] at h
  | succ n ih =>
    intro s s' ⟨hp1, hp2, hp3⟩ h
    simp only [mainLoop] at h
    split at h
    · obtain ⟨s1, h1, h⟩ := Outcome.bind_eq_done h
      obtain ⟨s2, h2, h⟩ := Outcome.bind_eq_done h
      obtain ⟨s3, h3, h⟩ := Outcome.bind_eq_done h
      refine ih s3 s' ?_ h
      obtain ⟨i, hi, hs1, hper, _⟩ := frameBegin_done e spinFuel _ s1 h1
      obtain ⟨r2, f2, t2⟩ := renderD3D_done e s1 s2 h2
      obtain ⟨r3, f3, t3⟩ := encodeD3D_done e s2 s3 h3
      subst hs1
      simp only at hi hper r2 f2 t2
      have hfs : s3.frameStart = e.clock (i + 1) := by rw [f3, f2]
      have hrd : s3.reads = i + 2 := by rw [r3, r2]
      have hmono1 : e.clock 1 ≤ e.clock (i + 1) := clock_mono e hm (by omega)
      have hmono2 : e.clock i ≤ e.clock (i + 1) := hm i
      refine ⟨by omega, by rw [hfs, hrd]; exact le_refl _, ?_⟩
      intro k hk
      rw [hfs]
      rw [t2] at t3
      cases k with
      | zero => simpa using hmono1
      | succ k =>
        rcases t3 with t3 | t3
        · have := hp3 (k + 1) (by omega)
          have hpos : framePeriod = 16666600 := framePeriod_eq
          linarith
        · have := hp3 k (by omega)
          push_cast at this ⊢
          have hpos : framePeriod = 16666600 := framePeriod_eq
          linarith
    · next hcheck =>
      injection h with h
      subst h
      have hexit : videoLength ≤ e.clock s.reads - e.clock 1 := by omega
      have hmono : e.clock (s.reads - 1) ≤ e.clock s.reads := clock_mono e hm (by omega)
      refine ⟨by simpa using hexit, ?_⟩
      simp only [Nat.add_sub_cancel]
      have hpos : (0 : Int) < framePeriod := by rw [framePeriod_eq]; omega
      cases hlen : (samplesOf s.trace).length with
      | zero =>
        have : 0 ≤ (e.clock s.reads - e.clock 1) / framePeriod :=
          Int.ediv_nonneg (by rw [videoLength_eq] at hexit; omega) (le_of_lt hpos)
        simp only [Nat.cast_zero]
        omega
      | succ k =>
        have h3 := hp3 k hlen
        have : (k : Int) ≤ (e.clock s.reads - e.clock 1) / framePeriod :=
          Int.le_ediv_of_mul_le hpos (by linarith)
        push_cast
        omega

theorem monotone_envSlow : MonotoneClock envSlow := by
  intro i
  simp only [envSlow]
  split_ifs <;> omega

set_option maxRecDepth 100000 in
/-- C7, as stated, fails: under the monotone clock `envSlow`, with every call
successful, the loop of `main` runs for exactly six seconds (360 whole sample
durations) and writes one sample, not 359 to 361. -/
theorem slow_frame_example :
    MonotoneClock envSlow ∧ (main envSlow 1 2).isDone = true ∧
    envSlow.clock ((main envSlow 1 2).sys.reads - 1) - envSlow.clock 1 = 6000000000 ∧
    (6000000000 : Int) / (sampleDuration * 100) = 360 ∧
    (samplesOf (main envSlow 1 2).sys.trace).length = 1 :=
  ⟨monotone_envSlow, by decide, by decide, by decide, by decide⟩

/-- C7, amended: in a run of `main` that returns, under a clock that never goes
backwards, let `D` be the time from `programStart` to the reading that ended
the loop.  Then `D` is at least `videoLength`, and the number of samples written
is at most `D / (sampleDuration * 100) + 1` (clock in ns, `sampleDuration` in
100 ns units); for `D` = 6 s that is at most 361.  No lower bound is claimed. -/
theorem tick_count_upper_bound (e : Env) (hm : MonotoneClock e) (spinFuel loopFuel : Nat)
    (s : Sys) (h : main e spinFuel loopFuel = .done s) :
    videoLength ≤ e.clock (s.reads - 1) - e.clock 1 ∧
    ((samplesOf s.trace).length : Int)
      ≤ (e.clock (s.reads - 1) - e.clock 1) / (sampleDuration * 100) + 1 ∧
    (e.clock (s.reads - 1) - e.clock 1 = 6000000000 → (samplesOf s.trace).length ≤ 361) := by
  unfold main at h
  obtain ⟨sb, hb, hsd⟩ := Outcome.bind_eq_done h
  unfold mainBody at hb
  obtain ⟨si, hinit, hloop⟩ := Outcome.bind_eq_done hb
  have hsi := init_done e _ si hinit
  have hpaced : Paced e si := by
    rw [hsi]
    refine ⟨le_refl _, hm 0, ?_⟩
    intro k hk
    simp [initialSys, samplesOf, initD3DSteps, initMediaFoundationSteps, Step.okEvent,
      Step.plain] at hk
  obtain ⟨h1, h2⟩ := mainLoop_paced e hm spinFuel loopFuel si sb hpaced hloop
  obtain ⟨_, _, _, _, hr, ht⟩ := shutdown_done e sb s hsd
  rw [hr, ht]
  refine ⟨h1, h2, ?_⟩
  intro hD
  rw [hD] at h2
  have : (6000000000 : Int) / (sampleDuration * 100) = 360 := by decide
  unfold framePeriod at h2
  rw [this] at h2
  omega

set_option maxRecDepth 100000 in
theorem tick_count_upper_bound_witness :
    videoLength ≤ envSlow.clock ((main envSlow 1 2).sys.reads - 1) - envSlow.clock 1 ∧
    ((samplesOf (main envSlow 1 2).sys.trace).length : Int)
      ≤ (envSlow.clock ((main envSlow 1 2).sys.reads - 1) - envSlow.clock 1)
          / (sampleDuration * 100) + 1 ∧
    (samplesOf (main envSlow 1 2).sys.trace).length ≤ 361 :=
  ⟨(tick_count_upper_bound envSlow monotone_envSlow 1 2 (main envSlow 1 2).sys (by decide)).1,
   (tick_count_upper_bound envSlow monotone_envSlow 1 2 (main envSlow 1 2).sys (by decide)).2.1,
   (tick_count_upper_bound envSlow monotone_envSlow 1 2 (main envSlow 1 2).sys (by decide)).2.2
      (by decide)⟩

/-! ## No null pointer is used in `main` -/

theorem Outcome.safe_bind {o : Outcome} {f : Sys → Outcome} {Q R : Sys → Prop}
    (h : o.safe Q) (hf : ∀ s, Q s → (f s).safe R) : (o.bind f).safe R := by
  cases o <;> simp_all [Outcome.bind, Outcome.safe]

theorem runSteps_safe (e : Env) : ∀ (steps : List Step) (s : Sys),
    recvOk steps s.com = true →
    (runSteps e steps s).safe
      (fun s' => s'.com = steps.foldl (fun c st => st.post c) s.com) := by
  intro steps
  induction steps with
  | nil => intro s _; rfl
  | cons st rest ih =>
    intro s h
    simp only [recvOk, Bool.and_eq_true] at h
    simp only [runSteps, Step.run, h.1, if_true]
    cases hok : e.hr s.calls
    · simp [Outcome.bind, Outcome.safe]
    · simp only [if_true, Outcome.bind]
      exact ih _ h.2

theorem init_safe (e : Env) (s : Sys)
    (hs : s.com = ⟨false, false, false, false, false, false, false, 0, 0xFF⟩) :
    (init e s).safe ComReady := by
  unfold init initD3D initMediaFoundation
  refine Outcome.safe_bind (runSteps_safe e initD3DSteps s (by rw [hs]; rfl)) ?_
  intro s1 h1
  refine Outcome.safe_bind (runSteps_safe e (initMediaFoundationSteps e) s1
    (by rw [h1, hs]; rfl)) ?_
  intro s2 h2
  rw [h1, hs] at h2
  simp only [Outcome.safe, ComReady, h2]
  exact ⟨rfl, rfl⟩

theorem colorIndex_lt (fc : Int) : colorIndex fc < clearColors.length :=
  Nat.mod_lt _ (by decide)

theorem renderD3D_safe (e : Env) (s : Sys) (h : ComReady s) :
    (renderD3D e s).safe ComReady := by
  unfold renderD3D
  split
  · exact h
  · rw [List.get?_eq_get (colorIndex_lt s.frameCounter)]
    simp only [h.1, if_true]
    exact h

theorem encodeD3D_safe (e : Env) (s : Sys) (h : ComReady s) :
    (encodeD3D e s).safe ComReady := by
  unfold encodeD3D
  split
  · exact h
  · refine Outcome.safe_bind (runSteps_safe e (encodeSteps s) s ?_) ?_
    · simp [recvOk, encodeSteps, Step.plain, h.2]
    · intro s1 h1
      simp only [encodeSteps, Step.plain, List.foldl, id] at h1
      simp only [Outcome.safe, ComReady, h1]
      exact h

theorem frameBegin_safe (e : Env) (fuel : Nat) (s : Sys) (h : ComReady s) :
    (frameBegin e fuel s).safe ComReady := by
  obtain ⟨r, hr | hr⟩ := frameBegin_frame e fuel s <;> rw [hr]
  · exact h
  · trivial

theorem mainLoop_safe (e : Env) (spinFuel : Nat) (programStart : Int) :
    ∀ (fuel : Nat) (s : Sys), ComReady s →
      (mainLoop e spinFuel programStart fuel s).safe ComReady := by
  intro fuel
  induction fuel with
  | zero => intro s _; trivial
  | succ n ih =>
    intro s h
    simp only [mainLoop]
    split
    · refine Outcome.safe_bind (frameBegin_safe e spinFuel _ h) ?_
      intro s1 h1
      refine Outcome.safe_bind (renderD3D_safe e s1 h1) ?_
      intro s2 h2
      exact Outcome.safe_bind (encodeD3D_safe e s2 h2) (fun s3 h3 => ih s3 h3)
    · exact h

/-- In no run does `main` call a method through a null pointer. -/
theorem main_never_faults (e : Env) (spinFuel loopFuel : Nat) :
    (main e spinFuel loopFuel).isFault = false := by
  have key : (main e spinFuel loopFuel).safe (fun _ => True) := by
    unfold main mainBody
    refine Outcome.safe_bind (Outcome.safe_bind (init_safe e _ rfl)
      (fun s hs => mainLoop_safe e spinFuel _ loopFuel s hs)) ?_
    intro s hs
    unfold shutdown Step.run
    simp only [hs.2, if_true]
    cases hok : e.hr s.calls <;> simp [Outcome.bind, Outcome.safe]
  cases hm : main e spinFuel loopFuel <;> simp_all [Outcome.safe, Outcome.isFault]

end D3DTexture2Mp4
